import Mathlib

/-!
Verification development for the oeis-probe repository.

Python strings are modelled as `List Char`, Python ints as `Int` (or `Nat`
for values that are provably non-negative counters/lengths), Python floats
produced by the score division as exact rationals `ℚ`, Python `None` as
`Option.none`, and raised exceptions as `Except`.  Every definition below is
a direct transcription of a function in `src/oeis_probe/core.py` or of the
merge/filter steps in `src/oeis_probe/cli.py`, except for the few
definitions whose doc comment says they restate a sentence of the spec (used
to compare spec wording with the code).
-/

/-- The six characters Python `str.split(None)`/`str.strip()` treat as
whitespace (ASCII range). -/
def pyIsSpaceChar (c : Char) : Bool :=
  decide (c = ' ') || decide (c = '\t') || decide (c = '\n') || decide (c = '\r') ||
    decide (c = '\x0b') || decide (c = '\x0c')

/-- Remove the characters satisfying `p` from both ends of a list. -/
def stripBy (p : Char → Bool) (l : List Char) : List Char :=
  ((l.dropWhile p).reverse.dropWhile p).reverse

/-- Python `str.strip()` with no argument: trim whitespace at both ends. -/
def pyStrip (l : List Char) : List Char :=
  stripBy pyIsSpaceChar l

/-- `leadSeg pat l` decides whether `pat` is a leading segment of `l`
(Python `str.startswith`). -/
def leadSeg {α : Type} [DecidableEq α] : List α → List α → Bool
  | [], _ => true
  | _ :: _, [] => false
  | a :: as, b :: bs => decide (a = b) && leadSeg as bs

/-- `occursIn pat l` decides whether `pat` occurs contiguously inside `l`
(Python `pat in l` on strings). -/
def occursIn {α : Type} [DecidableEq α] (pat : List α) : List α → Bool
  | [] => leadSeg pat []
  | b :: bs => leadSeg pat (b :: bs) || occursIn pat bs

/-- Numeric value of a list of decimal digit characters. -/
def digitsVal (l : List Char) : Nat :=
  l.foldl (fun a c => a * 10 + (c.toNat - 48)) 0

/-- Python `int(s)` on a string: strip whitespace, allow one leading sign,
then require a non-empty run of decimal digits; `none` models `ValueError`. -/
def pyInt (l : List Char) : Option Int :=
  match pyStrip l with
  | '-' :: ds => if ds ≠ [] ∧ ds.all Char.isDigit then some (-(digitsVal ds : Int)) else none
  | '+' :: ds => if ds ≠ [] ∧ ds.all Char.isDigit then some ((digitsVal ds : Int)) else none
  | ds => if ds ≠ [] ∧ ds.all Char.isDigit then some ((digitsVal ds : Int)) else none

/-- Python `s.split(",")`: always returns at least one (possibly empty)
chunk; consecutive commas give empty chunks. -/
def splitOnComma : List Char → List (List Char)
  | [] => [[]]
  | c :: rest =>
    if c = ',' then [] :: splitOnComma rest
    else
      match splitOnComma rest with
      | t :: ts => (c :: t) :: ts
      | [] => [[c]]

/-- Python `str(n)` for an integer. -/
def intChars (n : Int) : List Char :=
  if n < 0 then '-' :: Nat.toDigits 10 n.natAbs else Nat.toDigits 10 n.natAbs

/-- Left-pad with `'0'` up to width `w` (part of Python `f"{n:06d}"`). -/
def leftPadZeros (w : Nat) (l : List Char) : List Char :=
  List.replicate (w - l.length) '0' ++ l

/-- Python `f"{n:06d}"`: sign first, zero-padding to a total width of 6. -/
def pad6 (n : Int) : List Char :=
  if n < 0 then '-' :: leftPadZeros 5 (Nat.toDigits 10 n.natAbs)
  else leftPadZeros 6 (Nat.toDigits 10 n.natAbs)

/-- The inner loop shared by `parse_oeis_data_terms` and the inline term
parser of `oeis_search_offline_stripped` (core.py lines 209-218 and
375-384): skip empty chunks, stop at the first chunk `int` rejects, stop
as soon as `cap` integers have been collected. -/
def takeIntsUpTo (cap : Nat) : List (List Char) → List Int → List Int
  | [], out => out
  | it :: rest, out =>
    if it = [] then takeIntsUpTo cap rest out
    else
      match pyInt it with
      | none => out
      | some v =>
        let out' := out ++ [v]
        if cap ≤ out'.length then out' else takeIntsUpTo cap rest out'

/-- `parse_oeis_data_terms` (core.py lines 201-219): strip the field, split
on commas, strip each chunk, then run the lossy-prefix loop. -/
def parse_oeis_data_terms (s : List Char) (maxTerms : Nat) : List Int :=
  let s' := pyStrip s
  if s' = [] then [] else takeIntsUpTo maxTerms ((splitOnComma s').map pyStrip) []

/-- The inline parser of `oeis_search_offline_stripped` (core.py lines
375-384): split on commas and run the same loop with cap 400, without
stripping the chunks first. -/
def offline_parse_terms (rest : List Char) : List Int :=
  takeIntsUpTo 400 (splitOnComma rest) []

/-- Length of the longest common leading run of two integer lists: the
value computed by the inner `while` loop of `best_subsequence_match`
(core.py line 236) for a given start offset. -/
def lcpLen : List Int → List Int → Nat
  | a :: as, b :: bs => if a = b then lcpLen as bs + 1 else 0
  | _, _ => 0

/-- Run length of the needle aligned at offset `i` of the haystack. -/
def runAt (hay needle : List Int) (i : Nat) : Nat :=
  lcpLen (hay.drop i) needle

/-- The `for start in range(len(hay))` loop of `best_subsequence_match`
(core.py lines 232-242), with both `break` conditions. -/
def bsmFor (hay needle : List Int) : List Nat → Nat → Option Nat → Nat × Option Nat
  | [], bl, ba => (bl, ba)
  | start :: more, bl, ba =>
    if hay.length - start ≤ bl then (bl, ba)
    else
      let k := lcpLen (hay.drop start) needle
      let bl' := if bl < k then k else bl
      let ba' := if bl < k then some start else ba
      if bl' = needle.length then (bl', ba')
      else bsmFor hay needle more bl' ba'

/-- `best_subsequence_match` (core.py lines 222-243). -/
def best_subsequence_match (hay needle : List Int) : Nat × Option Nat :=
  if needle = [] ∨ hay = [] then (0, none)
  else bsmFor hay needle (List.range hay.length) 0 none

/-- The `OeisHit` dataclass (core.py lines 90-98), with the float score
modelled as an exact rational. -/
structure OeisHit where
  a_number : List Char
  name : List Char
  offset : List Char
  data_terms : List Int
  match_len : Nat
  match_at : Option Nat
  score : ℚ
deriving DecidableEq

/-- `_early_score` (core.py lines 449-456). -/
def earlyScore : Option Nat → ℚ
  | none => 0
  | some i => 1 / (1 + (i : ℚ))

/-- The `strict` sort key `(h.score, h.match_len)` (core.py line 475). -/
def keyStrict (h : OeisHit) : ℚ × Nat :=
  (h.score, h.match_len)

/-- The `prefer-early` sort key (core.py line 479). -/
def keyPE (h : OeisHit) : ℚ × Nat × ℚ :=
  (h.score, h.match_len, earlyScore h.match_at)

/-- Lexicographic `≤` on a `(score, match_len)` pair, as Python compares
the key tuples. -/
def qnLe (a b : ℚ × Nat) : Bool :=
  decide (a.1 < b.1) || (decide (a.1 = b.1) && decide (a.2 ≤ b.2))

/-- Lexicographic `≤` on a `(score, match_len, earliness)` triple. -/
def tripleLe (a b : ℚ × Nat × ℚ) : Bool :=
  decide (a.1 < b.1) ||
    (decide (a.1 = b.1) &&
      (decide (a.2.1 < b.2.1) || (decide (a.2.1 = b.2.1) && decide (a.2.2 ≤ b.2.2))))

/-- `a` sorts no later than `b` under the strict policy (descending keys). -/
def geStrict (a b : OeisHit) : Bool :=
  qnLe (keyStrict b) (keyStrict a)

/-- `a` sorts no later than `b` under the prefer-early policy. -/
def gePE (a b : OeisHit) : Bool :=
  tripleLe (keyPE b) (keyPE a)

/-- Stable insertion used to model Python's stable `sorted`: an element is
placed before the first element it is `ge`-related to, hence after every
earlier-input element with an equal key. -/
def insertByGe {α : Type} (ge : α → α → Bool) (x : α) : List α → List α
  | [] => [x]
  | y :: ys => if ge x y then x :: y :: ys else y :: insertByGe ge x ys

/-- Stable insertion sort; extensionally equal to Python's stable `sorted`
for the total-preorder keys used here. -/
def isortByGe {α : Type} (ge : α → α → Bool) : List α → List α
  | [] => []
  | x :: xs => insertByGe ge x (isortByGe ge xs)

/-- The `ValueError` message raised by `sort_hits` for an unknown policy. -/
def sortRankError : String := "rank must be strict or prefer-early"

/-- `sort_hits` (core.py lines 459-481). -/
def sort_hits (hits : List OeisHit) (rank : String) : Except String (List OeisHit) :=
  if rank = "strict" then Except.ok (isortByGe geStrict hits)
  else if rank = "prefer-early" then Except.ok (isortByGe gePE hits)
  else Except.error sortRankError

/-- A JSON scalar as the online adapter inspects it: absent (`None`), an
integer, or a string. -/
inductive JVal where
  | jnull : JVal
  | jint : Int → JVal
  | jstr : List Char → JVal
deriving DecidableEq

/-- One record of an OEIS search response; fields are typed by how
`hits_from_online_json` uses them (`number` may be an int or a string, the
others are strings when present). -/
structure JRecord where
  number : JVal
  idf : Option (List Char)
  name : Option (List Char)
  offset : Option (List Char)
  data : Option (List Char)

/-- An element of a results list: a dict-like record, or anything else
(skipped by `if not isinstance(r, dict): continue`). -/
inductive JEntry where
  | jrec : JRecord → JEntry
  | jother : JEntry

/-- The payload shapes `_oeis_results_from_payload` distinguishes
(core.py lines 246-262): a bare list, a dict wrapping a `"results"` list, a
single record-like dict, or anything else. -/
inductive JPayload where
  | plist : List JEntry → JPayload
  | pwrapped : List JEntry → JPayload
  | psingle : JRecord → JPayload
  | pother : JPayload

/-- `_oeis_results_from_payload` (core.py lines 246-262). -/
def oeis_results_from_payload : JPayload → List JEntry
  | JPayload.plist rs => rs
  | JPayload.pwrapped rs => rs
  | JPayload.psingle r => [JEntry.jrec r]
  | JPayload.pother => []

/-- The unknown-id sentinel. -/
def unknownId : List Char := ("A??????".toList)

/-- Python `x or ""` applied to a JSON scalar: falsy values (`None`, `0`,
`""`) collapse to the empty string. -/
def jOrEmptyStr : JVal → JVal
  | JVal.jint n => if n = 0 then JVal.jstr [] else JVal.jint n
  | JVal.jstr s => JVal.jstr s
  | JVal.jnull => JVal.jstr []

/-- The `id` fallback `(r.get("id") or "").strip() or "A??????"`
(core.py line 278). -/
def fallbackId (idf : Option (List Char)) : List Char :=
  let t := pyStrip (idf.getD [])
  if t = [] then unknownId else t

/-- Identifier extraction of `hits_from_online_json` (core.py lines
274-278): `a = r.get("number") or ""`, use it zero-padded if it is an int
or a digit string, else fall back to the `id` field or the sentinel. -/
def extract_a_number (number : JVal) (idf : Option (List Char)) : List Char :=
  match jOrEmptyStr number with
  | JVal.jint n => 'A' :: pad6 n
  | JVal.jstr s =>
    if pyStrip s ≠ [] ∧ (pyStrip s).all Char.isDigit then
      'A' :: pad6 ((digitsVal (pyStrip s) : Int))
    else fallbackId idf
  | JVal.jnull => fallbackId idf

/-- Construction of one `OeisHit` from one online record (core.py lines
274-298). -/
def mkOnlineHit (needle : List Int) (r : JRecord) : OeisHit :=
  let dt := parse_oeis_data_terms (r.data.getD []) 400
  let m := best_subsequence_match dt needle
  let denom : Nat := max 1 (min needle.length dt.length)
  { a_number := extract_a_number r.number r.idf
    name := pyStrip (r.name.getD [])
    offset := pyStrip (r.offset.getD [])
    data_terms := dt
    match_len := m.1
    match_at := m.2
    score := (m.1 : ℚ) / (denom : ℚ) }

/-- `hits_from_online_json` (core.py lines 265-300): examine at most
`3 × max_hits` records, skip non-dict entries, build a hit from each
record, sort by the strict policy and truncate to `max_hits`. -/
def hits_from_online_json (terms : List Int) (payload : JPayload) (maxHits : Nat) :
    List OeisHit :=
  let results := oeis_results_from_payload payload
  let hits := (results.take (maxHits * 3)).filterMap fun e =>
    match e with
    | JEntry.jrec r => some (mkOnlineHit terms r)
    | JEntry.jother => none
  (isortByGe geStrict hits).take maxHits

/-- Line normalization of `iter_stripped_lines` (core.py lines 326-347):
skip comments/blank lines, split once on whitespace, require a 7-character
identifier starting with `'A'`, strip the term text and remove its spaces. -/
def iterStrippedLine (line : List Char) : Option (List Char × List Char) :=
  if line = [] then none
  else if leadSeg (("#".toList)) line then none
  else
    let l0 := stripBy (fun c => decide (c = '\n')) line
    if l0 = [] then none
    else
      let l1 := l0.dropWhile pyIsSpaceChar
      let tok := l1.takeWhile (fun c => !pyIsSpaceChar c)
      let after := l1.dropWhile (fun c => !pyIsSpaceChar c)
      let rest := pyStrip after
      if rest = [] then none
      else
        let aid := pyStrip tok
        if leadSeg (("A".toList)) aid && decide (aid.length = 7) then
          some (aid, rest.filter (fun c => !decide (c = ' ')))
        else none

/-- `iter_stripped_lines` over an already-read list of lines. -/
def iter_stripped_lines (lines : List (List Char)) : List (List Char × List Char) :=
  lines.filterMap iterStrippedLine

/-- The wrapped needle string `",t1,t2,...,tk,"` (core.py line 362). -/
def wrapNeedle (terms : List Int) : List Char :=
  (',' :: List.intercalate [','] (terms.map intChars)) ++ [',']

/-- Whether the `max_scan` limit has been reached. -/
def scanReached : Option Nat → Nat → Bool
  | none, _ => false
  | some m, s => decide (m ≤ s)

/-- The scanning loop of `oeis_search_offline_stripped` (core.py lines
370-402), with the acceptance test, hit construction and both early
exits. -/
def offlineGo (needle : List Char) (terms : List Int) (names : List Char → List Char)
    (maxHits : Nat) (maxScan : Option Nat) :
    List (List Char × List Char) → Nat → List OeisHit → List OeisHit
  | [], _, hits => hits
  | (aid, rest) :: more, scanned, hits =>
    let scanned' := scanned + 1
    if occursIn needle rest then
      let dt := offline_parse_terms rest
      let m := best_subsequence_match dt terms
      let denom : Nat := max 1 (min terms.length dt.length)
      let h : OeisHit :=
        { a_number := aid
          name := names aid
          offset := []
          data_terms := dt
          match_len := m.1
          match_at := m.2
          score := (m.1 : ℚ) / (denom : ℚ) }
      let hits' := hits ++ [h]
      if maxHits ≤ hits'.length then hits'
      else if scanReached maxScan scanned' then hits'
      else offlineGo needle terms names maxHits maxScan more scanned' hits'
    else if scanReached maxScan scanned' then hits
    else offlineGo needle terms names maxHits maxScan more scanned' hits

/-- `oeis_search_offline_stripped` (core.py lines 350-404), over an
in-memory corpus; the `names` lookup collaborator is passed as a
function. -/
def oeis_search_offline_stripped (terms : List Int) (lines : List (List Char))
    (names : List Char → List Char) (maxHits : Nat) (maxScan : Option Nat) :
    List OeisHit :=
  (isortByGe geStrict
      (offlineGo (wrapNeedle terms) terms names maxHits maxScan
        (iter_stripped_lines lines) 0 [])).take maxHits

/-- Association-list model of a Python dict: first binding of a key wins on
lookup, re-insertion replaces the value in place. -/
def dictLookup (k : List Char) : List (List Char × OeisHit) → Option OeisHit
  | [] => none
  | (k', v) :: rest => if k' = k then some v else dictLookup k rest

/-- Dict insertion: replace the existing binding for `k` or append. -/
def dictInsert (k : List Char) (v : OeisHit) :
    List (List Char × OeisHit) → List (List Char × OeisHit)
  | [] => [(k, v)]
  | (k', v') :: rest => if k' = k then (k', v) :: rest else (k', v') :: dictInsert k v rest

/-- `dict.values()`. -/
def dictValues (d : List (List Char × OeisHit)) : List OeisHit :=
  d.map (fun p => p.2)

/-- Python tuple comparison `(a1, a2) > (b1, b2)` on a `(score, match_len)`
pair. -/
def pairGtBool (a b : ℚ × Nat) : Bool :=
  decide (b.1 < a.1) || (decide (a.1 = b.1) && decide (b.2 < a.2))

/-- The seeding comprehension `{h.a_number: h for h in offline_hits}`
(cli.py line 229). -/
def seedDict (offline : List OeisHit) : List (List Char × OeisHit) :=
  offline.foldl (fun d h => dictInsert h.a_number h d) []

/-- One step of the online merge loop (cli.py lines 230-233). -/
def mergeStep (d : List (List Char × OeisHit)) (h : OeisHit) :
    List (List Char × OeisHit) :=
  match dictLookup h.a_number d with
  | none => dictInsert h.a_number h d
  | some prev =>
    if pairGtBool (h.score, h.match_len) (prev.score, prev.match_len) then
      dictInsert h.a_number h d
    else d

/-- The merger of cli.py lines 229-233. -/
def merge_hits (offline online : List OeisHit) : List (List Char × OeisHit) :=
  online.foldl mergeStep (seedDict offline)

/-- `min_match_len = max(1, int(args.min_match_len))` (cli.py line 200). -/
def effective_min_match_len (x : Int) : Int :=
  max 1 x

/-- The post-merge filter (cli.py line 235). -/
def filter_min_match (m : Int) (hits : List OeisHit) : List OeisHit :=
  hits.filter (fun h => decide (m ≤ (h.match_len : Int)))

/-- The dict returned by `mismatch_details`, flattened into a record; the
mismatch-only keys are `none` when the status does not set them. -/
structure MismatchDetails where
  a_number : List Char
  match_at : Option Nat
  match_len : Nat
  query_len : Nat
  status : String
  query_index : Option Nat
  hay_index : Option Nat
  got : Option Int
  expected : Option Int
deriving DecidableEq

/-- `mismatch_details` (core.py lines 484-516). -/
def mismatch_details (query : List Int) (hit : OeisHit) : MismatchDetails :=
  if hit.match_at = none ∨ hit.match_len = 0 then
    { a_number := hit.a_number, match_at := hit.match_at, match_len := hit.match_len,
      query_len := query.length, status := "no_alignment", query_index := none,
      hay_index := none, got := none, expected := none }
  else if query.length ≤ hit.match_len then
    { a_number := hit.a_number, match_at := hit.match_at, match_len := hit.match_len,
      query_len := query.length, status := "full_match", query_index := none,
      hay_index := none, got := none, expected := none }
  else
    let qi := hit.match_len
    let hi := hit.match_at.getD 0 + hit.match_len
    { a_number := hit.a_number, match_at := hit.match_at, match_len := hit.match_len,
      query_len := query.length, status := "mismatch", query_index := some qi,
      hay_index := some hi, got := query.get? qi, expected := hit.data_terms.get? hi }

/-- The validation and query construction of `oeis_fetch_by_id_online`
(core.py lines 177-189): uppercase and strip the argument, require a
7-character string starting with `'A'`, then build the `id:` query; the
network fetch and cache are external collaborators.  `Except.error` models
the raised `ValueError`. -/
def oeis_fetch_by_id_online (a_number : List Char) : Except String (List Char) :=
  let a := pyStrip (a_number.map Char.toUpper)
  if leadSeg (("A".toList)) a && decide (a.length = 7) then
    Except.ok (("id:".toList) ++ a)
  else Except.error "expected A-number like A000045"

/-- Whether an `Except` is a success. -/
def exceptIsOk {ε α : Type} : Except ε α → Bool
  | Except.ok _ => true
  | Except.error _ => false

/-- Specification predicate for `best_subsequence_match` (claim C1):
`r.1` bounds every aligned run length, a zero result carries no start
index, and a positive result is achieved at the reported start index,
every smaller start achieving strictly less. -/
def isBestMatch (hay needle : List Int) (r : Nat × Option Nat) : Prop :=
  (∀ i, runAt hay needle i ≤ r.1) ∧
  (r.1 = 0 → r.2 = none) ∧
  (0 < r.1 → ∃ j, r.2 = some j ∧ runAt hay needle j = r.1 ∧
    ∀ i, i < j → runAt hay needle i < r.1)

/-- The Hit invariants of claim C2, relative to the query length. -/
def hitInvariant (qlen : Nat) (h : OeisHit) : Prop :=
  h.match_len ≤ h.data_terms.length ∧
  (h.match_len = 0 → h.match_at = none) ∧
  (∀ j, h.match_at = some j → j + h.match_len ≤ h.data_terms.length) ∧
  h.score = (h.match_len : ℚ) / ((max 1 (min qlen h.data_terms.length) : ℕ) : ℚ) ∧
  0 ≤ h.score ∧ h.score ≤ 1

/-- First hit with the given identifier in a list. -/
def findByKey (k : List Char) (l : List OeisHit) : Option OeisHit :=
  l.find? (fun h => decide (h.a_number = k))

/-- `Option` alternative: keep the first value if present. -/
def optOr {α : Type} : Option α → Option α → Option α
  | some x, _ => some x
  | none, b => b

/-- The per-identifier outcome of the online merge loop: an online hit `n`
replaces a stored hit `prev` only when its `(score, match_len)` pair is
strictly greater. -/
def mergePick : Option OeisHit → Option OeisHit → Option OeisHit
  | none, x => x
  | some n, none => some n
  | some n, some prev =>
    some (if pairGtBool (n.score, n.match_len) (prev.score, prev.match_len) then n else prev)

/-- Modelled from the claim wording of C8: take integers from the comma
chunks in order, stopping at the first chunk that is not a well-formed
integer (so an empty chunk also stops the parse). -/
def claimLeadingInts : List (List Char) → List Int
  | [] => []
  | it :: rest =>
    match pyInt it with
    | none => []
    | some v => v :: claimLeadingInts rest

/-- The lossy-prefix policy the code actually implements: empty chunks are
skipped, the parse stops at the first non-empty malformed chunk. -/
def lossyIntTokens : List (List Char) → List Int
  | [] => []
  | it :: rest =>
    if it = [] then lossyIntTokens rest
    else
      match pyInt it with
      | none => []
      | some v => v :: lossyIntTokens rest

/-- Modelled from the claim wording of C7: the pattern `"A"` followed by
exactly six decimal digits. -/
def isStrictANumber : List Char → Bool
  | c :: rest => decide (c = 'A') && decide (rest.length = 6) && rest.all Char.isDigit
  | [] => false

/-- Online record used to witness the C2 invariants. -/
def c2rec : JRecord :=
  { number := JVal.jint 45, idf := none, name := none, offset := none,
    data := some (("1,2".toList)) }

/-- Payload wrapping `c2rec`. -/
def c2payload : JPayload := JPayload.plist [JEntry.jrec c2rec]

/-- The hit the online adapter builds from `c2rec` for the query `[1]`. -/
def c2hit : OeisHit :=
  mkOnlineHit [1] c2rec

/-- Offline-side hit for the merger witness. -/
def c3off : OeisHit :=
  { a_number := ("A000001".toList), name := [], offset := [], data_terms := [1, 2],
    match_len := 1, match_at := some 0, score := 0 }

/-- Online-side hit with a strictly greater `(score, match_len)` pair. -/
def c3on : OeisHit :=
  { a_number := ("A000001".toList), name := [], offset := [], data_terms := [1, 2],
    match_len := 2, match_at := some 0, score := 1 }

/-- A payload whose single record shares no term with the query `[1, 2]`,
so the adapter builds a hit with `match_len = 0`. -/
def c5payload : JPayload :=
  JPayload.plist
    [JEntry.jrec
      { number := JVal.jint 7, idf := none, name := none, offset := none,
        data := some (("9,9".toList)) }]

/-- A hit with a positive match length, kept by the default filter. -/
def c5hitKept : OeisHit :=
  { a_number := ("A000005".toList), name := [], offset := [], data_terms := [1],
    match_len := 1, match_at := some 0, score := 1 }

/-- A payload whose single record has the integer `0` in its `number`
field and a textual `id` field. -/
def c6payload : JPayload :=
  JPayload.plist
    [JEntry.jrec
      { number := JVal.jint 0, idf := some (("X999999".toList)), name := none,
        offset := none, data := some (("0".toList)) }]

/-- Corpus for C10: the first line contains the wrapped needle `,1,2,3,`
literally but its term list is truncated at the malformed token `x`; the
second line matches fully but is never reached with `max_hits = 1`. -/
def c10lines : List (List Char) :=
  [("A000001 ,5,x,1,2,3,9,".toList), ("A000002 ,1,2,3,4,".toList)]

/-- The hit of the spec's mismatch-explainer example. -/
def c9hit : OeisHit :=
  { a_number := ("A999999".toList), name := [], offset := [],
    data_terms := [0, 1, 3, 6, 2, 7, 13, 20, 12, 21, 11, 22],
    match_len := 11, match_at := some 0, score := 11/12 }

lemma lcpLen_nil_left : ∀ b : List Int, lcpLen [] b = 0
  | [] => rfl
  | _ :: _ => rfl

lemma lcpLen_nil_right : ∀ a : List Int, lcpLen a [] = 0
  | [] => rfl
  | _ :: _ => rfl

lemma lcpLen_le_left : ∀ a b : List Int, lcpLen a b ≤ a.length
  | [], b => by simp [lcpLen_nil_left]
  | _ :: _, [] => by simp [lcpLen_nil_right]
  | a :: as, b :: bs => by
    by_cases h : a = b
    · have := lcpLen_le_left as bs
      simp only [lcpLen, h, if_true, List.length_cons]
      omega
    · simp [lcpLen, h]

lemma lcpLen_le_right : ∀ a b : List Int, lcpLen a b ≤ b.length
  | [], b => by simp [lcpLen_nil_left]
  | _ :: _, [] => by simp [lcpLen_nil_right]
  | a :: as, b :: bs => by
    by_cases h : a = b
    · have := lcpLen_le_right as bs
      simp only [lcpLen, h, if_true, List.length_cons]
      omega
    · simp [lcpLen, h]

lemma runAt_le_sub (hay needle : List Int) (i : Nat) :
    runAt hay needle i ≤ hay.length - i := by
  have h := lcpLen_le_left (hay.drop i) needle
  simpa [runAt, List.length_drop] using h

lemma runAt_le_needle (hay needle : List Int) (i : Nat) :
    runAt hay needle i ≤ needle.length :=
  lcpLen_le_right _ _

lemma runAt_zero_of_ge (hay needle : List Int) {i : Nat} (h : hay.length ≤ i) :
    runAt hay needle i = 0 := by
  have hd : hay.drop i = [] := List.drop_eq_nil_of_le h
  simp [runAt, hd, lcpLen_nil_left]

lemma runAt_pos_lt (hay needle : List Int) {i : Nat}
    (h : 0 < runAt hay needle i) : i < hay.length := by
  by_contra hc
  push_neg at hc
  rw [runAt_zero_of_ge hay needle hc] at h
  omega

lemma bsmFor_spec (hay needle : List Int) :
    ∀ (cnt start bl : Nat) (ba : Option Nat),
      start + cnt = hay.length →
      (∀ i, i < start → runAt hay needle i ≤ bl) →
      (bl = 0 → ba = none) →
      (0 < bl → ∃ j, ba = some j ∧ runAt hay needle j = bl ∧
        ∀ i, i < j → runAt hay needle i < bl) →
      isBestMatch hay needle (bsmFor hay needle (List.range' start cnt) bl ba) := by
  intro cnt
  induction cnt with
  | zero =>
    intro start bl ba hlen hub hz hp
    rw [List.range'_zero]
    refine ⟨?_, hz, hp⟩
    intro i
    by_cases hi : i < start
    · exact hub i hi
    · push_neg at hi
      rw [runAt_zero_of_ge hay needle (by omega)]
      omega
  | succ n ih =>
    intro start bl ba hlen hub hz hp
    rw [List.range'_succ]
    rw [bsmFor]
    by_cases h1 : hay.length - start ≤ bl
    · rw [if_pos h1]
      refine ⟨?_, hz, hp⟩
      intro i
      by_cases hi : i < start
      · exact hub i hi
      · push_neg at hi
        have h2 := runAt_le_sub hay needle i
        omega
    · rw [if_neg h1]
      simp only []
      by_cases hk : bl < lcpLen (hay.drop start) needle
      · -- the candidate at `start` improves the best
        have hrs : runAt hay needle start = lcpLen (hay.drop start) needle := rfl
        by_cases hn : lcpLen (hay.drop start) needle = needle.length
        · rw [if_pos hk, if_pos hk, if_pos hn]
          refine ⟨?_, ?_, ?_⟩
          · intro i
            have := runAt_le_needle hay needle i
            omega
          · intro h0
            omega
          · intro _
            exact ⟨start, rfl, by omega, fun i hi => by have := hub i hi; omega⟩
        · rw [if_pos hk, if_pos hk, if_neg hn]
          apply ih (start + 1)
          · omega
          · intro i hi
            by_cases his : i < start
            · have := hub i his; omega
            · have : i = start := by omega
              subst this
              omega
          · intro h0
            omega
          · intro _
            exact ⟨start, rfl, by omega, fun i hi => by have := hub i hi; omega⟩
      · -- no improvement at `start`
        have hrs : runAt hay needle start = lcpLen (hay.drop start) needle := rfl
        by_cases hn : bl = needle.length
        · rw [if_neg hk, if_neg hk, if_pos hn]
          refine ⟨?_, hz, hp⟩
          intro i
          have := runAt_le_needle hay needle i
          omega
        · rw [if_neg hk, if_neg hk, if_neg hn]
          apply ih (start + 1)
          · omega
          · intro i hi
            by_cases his : i < start
            · exact hub i his
            · have : i = start := by omega
              subst this
              omega
          · exact hz
          · exact hp

lemma bsm_isBestMatch (hay needle : List Int) :
    isBestMatch hay needle (best_subsequence_match hay needle) := by
  unfold best_subsequence_match
  by_cases h : needle = [] ∨ hay = []
  · rw [if_pos h]
    refine ⟨?_, fun _ => rfl, fun h0 => by omega⟩
    intro i
    rcases h with h | h
    · simp [runAt, h, lcpLen_nil_right]
    · simp [runAt, h, lcpLen_nil_left]
  · rw [if_neg h]
    rw [List.range_eq_range']
    apply bsmFor_spec hay needle hay.length 0 0 none
    · omega
    · intro i hi; omega
    · intro _; rfl
    · intro h0; omega

lemma bsm_fst_le_hay (hay needle : List Int) :
    (best_subsequence_match hay needle).1 ≤ hay.length := by
  have h := bsm_isBestMatch hay needle
  rcases Nat.eq_zero_or_pos (best_subsequence_match hay needle).1 with h0 | h0
  · omega
  · rcases h.2.2 h0 with ⟨j, _, hj, _⟩
    have h1 := runAt_le_sub hay needle j
    omega

lemma bsm_fst_le_needle (hay needle : List Int) :
    (best_subsequence_match hay needle).1 ≤ needle.length := by
  have h := bsm_isBestMatch hay needle
  rcases Nat.eq_zero_or_pos (best_subsequence_match hay needle).1 with h0 | h0
  · omega
  · rcases h.2.2 h0 with ⟨j, _, hj, _⟩
    have h1 := runAt_le_needle hay needle j
    omega

lemma bsm_none_of_zero (hay needle : List Int)
    (h0 : (best_subsequence_match hay needle).1 = 0) :
    (best_subsequence_match hay needle).2 = none :=
  (bsm_isBestMatch hay needle).2.1 h0

lemma bsm_some_bound (hay needle : List Int) {j : Nat}
    (hj : (best_subsequence_match hay needle).2 = some j) :
    j + (best_subsequence_match hay needle).1 ≤ hay.length := by
  have h := bsm_isBestMatch hay needle
  rcases Nat.eq_zero_or_pos (best_subsequence_match hay needle).1 with h0 | h0
  · rw [h.2.1 h0] at hj
    cases hj
  · rcases h.2.2 h0 with ⟨j', hj', hrun, _⟩
    rw [hj'] at hj
    have hjj : j' = j := Option.some.inj hj
    subst hjj
    have h1 := runAt_le_sub hay needle j'
    have h2 : j' < hay.length := runAt_pos_lt hay needle (by omega)
    omega

lemma insertByGe_perm {α : Type} (ge : α → α → Bool) (x : α) :
    ∀ l : List α, (insertByGe ge x l).Perm (x :: l)
  | [] => List.Perm.refl _
  | y :: ys => by
    by_cases h : ge x y
    · simp [insertByGe, h]
    · rw [insertByGe, if_neg h]
      exact ((insertByGe_perm ge x ys).cons y).trans (List.Perm.swap x y ys)

lemma isortByGe_perm {α : Type} (ge : α → α → Bool) :
    ∀ l : List α, (isortByGe ge l).Perm l
  | [] => List.Perm.refl _
  | x :: xs =>
    (insertByGe_perm ge x (isortByGe ge xs)).trans ((isortByGe_perm ge xs).cons x)

lemma mem_isortByGe {α : Type} (ge : α → α → Bool) (l : List α) (a : α) :
    a ∈ isortByGe ge l ↔ a ∈ l :=
  (isortByGe_perm ge l).mem_iff

lemma pairwise_insertByGe {α : Type} (ge : α → α → Bool)
    (htot : ∀ a b, ge a b = true ∨ ge b a = true)
    (htrans : ∀ a b c, ge a b = true → ge b c = true → ge a c = true) (x : α) :
    ∀ l : List α, l.Pairwise (fun a b => ge a b = true) →
      (insertByGe ge x l).Pairwise (fun a b => ge a b = true) := by
  intro l
  induction l with
  | nil => intro _; simp [insertByGe]
  | cons y ys ih =>
    intro hp
    rcases List.pairwise_cons.mp hp with ⟨hy, hys⟩
    by_cases h : ge x y
    · rw [insertByGe, if_pos h]
      refine List.pairwise_cons.mpr ⟨?_, hp⟩
      intro z hz
      rcases List.mem_cons.mp hz with rfl | hz'
      · exact h
      · exact htrans x y z h (hy z hz')
    · rw [insertByGe, if_neg h]
      refine List.pairwise_cons.mpr ⟨?_, ih hys⟩
      intro z hz
      have hz' : z ∈ x :: ys := (insertByGe_perm ge x ys).mem_iff.mp hz
      rcases List.mem_cons.mp hz' with rfl | hz''
      · rcases htot z y with h' | h'
        · exact absurd h' h
        · exact h'
      · exact hy z hz''

lemma pairwise_isortByGe {α : Type} (ge : α → α → Bool)
    (htot : ∀ a b, ge a b = true ∨ ge b a = true)
    (htrans : ∀ a b c, ge a b = true → ge b c = true → ge a c = true) :
    ∀ l : List α, (isortByGe ge l).Pairwise (fun a b => ge a b = true) := by
  intro l
  induction l with
  | nil => simp [isortByGe]
  | cons x xs ih =>
    rw [isortByGe]
    exact pairwise_insertByGe ge htot htrans x _ ih

lemma filter_insertByGe {α κ : Type} [DecidableEq κ] (ge : α → α → Bool) (key : α → κ)
    (hne : ∀ a b, ge a b = false → key a ≠ key b) (x : α) (k : κ) :
    ∀ l : List α,
      (insertByGe ge x l).filter (fun h => decide (key h = k)) =
        if key x = k then x :: l.filter (fun h => decide (key h = k))
        else l.filter (fun h => decide (key h = k)) := by
  intro l
  induction l with
  | nil => by_cases hk : key x = k <;> simp [insertByGe, hk]
  | cons y ys ih =>
    by_cases h : ge x y
    · rw [insertByGe, if_pos h]
      by_cases hk : key x = k <;> simp [List.filter_cons, hk]
    · have hf : ge x y = false := by
        revert h; cases ge x y <;> simp
      have hxy : key x ≠ key y := hne x y hf
      rw [insertByGe, if_neg h]
      rw [List.filter_cons, List.filter_cons, ih]
      by_cases hk : key x = k
      · have hyk : ¬ (key y = k) := fun hyk => hxy (hk.trans hyk.symm)
        simp [hk, hyk]
      · by_cases hyk : key y = k <;> simp [hk, hyk]

lemma filter_isortByGe {α κ : Type} [DecidableEq κ] (ge : α → α → Bool) (key : α → κ)
    (hne : ∀ a b, ge a b = false → key a ≠ key b) (k : κ) :
    ∀ l : List α,
      (isortByGe ge l).filter (fun h => decide (key h = k)) =
        l.filter (fun h => decide (key h = k)) := by
  intro l
  induction l with
  | nil => simp [isortByGe]
  | cons x xs ih =>
    rw [isortByGe, filter_insertByGe ge key hne x k, List.filter_cons]
    by_cases hk : key x = k <;> simp [hk, ih]

lemma qnLe_iff (a b : ℚ × Nat) :
    qnLe a b = true ↔ (a.1 < b.1 ∨ (a.1 = b.1 ∧ a.2 ≤ b.2)) := by
  simp [qnLe, Bool.or_eq_true, Bool.and_eq_true, decide_eq_true_eq]

lemma qnLe_refl (a : ℚ × Nat) : qnLe a a = true := by
  rw [qnLe_iff]; right; exact ⟨rfl, le_refl _⟩

lemma qnLe_total (a b : ℚ × Nat) : qnLe a b = true ∨ qnLe b a = true := by
  rw [qnLe_iff, qnLe_iff]
  rcases lt_trichotomy a.1 b.1 with h | h | h
  · exact Or.inl (Or.inl h)
  · rcases Nat.le_total a.2 b.2 with h2 | h2
    · exact Or.inl (Or.inr ⟨h, h2⟩)
    · exact Or.inr (Or.inr ⟨h.symm, h2⟩)
  · exact Or.inr (Or.inl h)

lemma qnLe_trans (a b c : ℚ × Nat) (h1 : qnLe a b = true) (h2 : qnLe b c = true) :
    qnLe a c = true := by
  rw [qnLe_iff] at h1 h2 ⊢
  rcases h1 with h1 | ⟨h1e, h1n⟩
  · rcases h2 with h2 | ⟨h2e, _⟩
    · exact Or.inl (h1.trans h2)
    · exact Or.inl (h2e ▸ h1)
  · rcases h2 with h2 | ⟨h2e, h2n⟩
    · exact Or.inl (h1e ▸ h2)
    · exact Or.inr ⟨h1e.trans h2e, h1n.trans h2n⟩

lemma tripleLe_iff (a b : ℚ × Nat × ℚ) :
    tripleLe a b = true ↔
      (a.1 < b.1 ∨ (a.1 = b.1 ∧ (a.2.1 < b.2.1 ∨ (a.2.1 = b.2.1 ∧ a.2.2 ≤ b.2.2)))) := by
  simp [tripleLe, Bool.or_eq_true, Bool.and_eq_true, decide_eq_true_eq]

lemma tripleLe_refl (a : ℚ × Nat × ℚ) : tripleLe a a = true := by
  rw [tripleLe_iff]; right; exact ⟨rfl, Or.inr ⟨rfl, le_refl _⟩⟩

lemma tripleLe_total (a b : ℚ × Nat × ℚ) : tripleLe a b = true ∨ tripleLe b a = true := by
  rw [tripleLe_iff, tripleLe_iff]
  rcases lt_trichotomy a.1 b.1 with h | h | h
  · exact Or.inl (Or.inl h)
  · rcases lt_trichotomy a.2.1 b.2.1 with h2 | h2 | h2
    · exact Or.inl (Or.inr ⟨h, Or.inl h2⟩)
    · rcases le_total a.2.2 b.2.2 with h3 | h3
      · exact Or.inl (Or.inr ⟨h, Or.inr ⟨h2, h3⟩⟩)
      · exact Or.inr (Or.inr ⟨h.symm, Or.inr ⟨h2.symm, h3⟩⟩)
    · exact Or.inr (Or.inr ⟨h.symm, Or.inl h2⟩)
  · exact Or.inr (Or.inl h)

lemma tripleLe_trans (a b c : ℚ × Nat × ℚ) (h1 : tripleLe a b = true)
    (h2 : tripleLe b c = true) : tripleLe a c = true := by
  rw [tripleLe_iff] at h1 h2 ⊢
  rcases h1 with h1 | ⟨h1e, h1r⟩
  · rcases h2 with h2 | ⟨h2e, _⟩
    · exact Or.inl (h1.trans h2)
    · exact Or.inl (h2e ▸ h1)
  · rcases h2 with h2 | ⟨h2e, h2r⟩
    · exact Or.inl (h1e ▸ h2)
    · refine Or.inr ⟨h1e.trans h2e, ?_⟩
      rcases h1r with h1r | ⟨h1re, h1rn⟩
      · rcases h2r with h2r | ⟨h2re, _⟩
        · exact Or.inl (h1r.trans h2r)
        · exact Or.inl (h2re ▸ h1r)
      · rcases h2r with h2r | ⟨h2re, h2rn⟩
        · exact Or.inl (h1re ▸ h2r)
        · exact Or.inr ⟨h1re.trans h2re, h1rn.trans h2rn⟩

lemma geStrict_total (a b : OeisHit) : geStrict a b = true ∨ geStrict b a = true := by
  unfold geStrict
  exact qnLe_total (keyStrict b) (keyStrict a)

lemma geStrict_trans (a b c : OeisHit) (h1 : geStrict a b = true)
    (h2 : geStrict b c = true) : geStrict a c = true :=
  qnLe_trans _ _ _ h2 h1

lemma geStrict_false_ne (a b : OeisHit) (h : geStrict a b = false) :
    keyStrict a ≠ keyStrict b := by
  intro he
  rw [geStrict, he, qnLe_refl] at h
  cases h

lemma gePE_total (a b : OeisHit) : gePE a b = true ∨ gePE b a = true := by
  unfold gePE
  exact tripleLe_total (keyPE b) (keyPE a)

lemma gePE_trans (a b c : OeisHit) (h1 : gePE a b = true) (h2 : gePE b c = true) :
    gePE a c = true :=
  tripleLe_trans _ _ _ h2 h1

lemma gePE_false_ne (a b : OeisHit) (h : gePE a b = false) : keyPE a ≠ keyPE b := by
  intro he
  rw [gePE, he, tripleLe_refl] at h
  cases h

lemma score_formula_bounds (mlen qlen dlen : Nat) (hq : mlen ≤ qlen) (hd : mlen ≤ dlen) :
    0 ≤ (mlen : ℚ) / ((max 1 (min qlen dlen) : ℕ) : ℚ) ∧
      (mlen : ℚ) / ((max 1 (min qlen dlen) : ℕ) : ℚ) ≤ 1 := by
  have hpos : (0 : ℚ) < ((max 1 (min qlen dlen) : ℕ) : ℚ) := by
    have : 0 < max 1 (min qlen dlen) := by omega
    exact_mod_cast this
  constructor
  · exact div_nonneg (Nat.cast_nonneg mlen) hpos.le
  · rw [div_le_one hpos]
    have : mlen ≤ max 1 (min qlen dlen) := by omega
    exact_mod_cast this

lemma hitInvariant_mk (needle dt : List Int) (a nm off : List Char) :
    hitInvariant needle.length
      { a_number := a, name := nm, offset := off, data_terms := dt,
        match_len := (best_subsequence_match dt needle).1,
        match_at := (best_subsequence_match dt needle).2,
        score := ((best_subsequence_match dt needle).1 : ℚ) /
          ((max 1 (min needle.length dt.length) : ℕ) : ℚ) } := by
  have h1 := bsm_fst_le_hay dt needle
  have h2 := bsm_fst_le_needle dt needle
  have h3 := score_formula_bounds (best_subsequence_match dt needle).1 needle.length
    dt.length h2 h1
  refine ⟨h1, ?_, ?_, rfl, h3.1, h3.2⟩
  · intro h0
    exact bsm_none_of_zero dt needle h0
  · intro j hj
    exact bsm_some_bound dt needle hj

lemma mkOnlineHit_invariant (needle : List Int) (r : JRecord) :
    hitInvariant needle.length (mkOnlineHit needle r) :=
  hitInvariant_mk needle (parse_oeis_data_terms (r.data.getD []) 400)
    (extract_a_number r.number r.idf) (pyStrip (r.name.getD []))
    (pyStrip (r.offset.getD []))

lemma offlineGo_invariant (needle : List Char) (terms : List Int)
    (names : List Char → List Char) (maxHits : Nat) (maxScan : Option Nat) :
    ∀ (entries : List (List Char × List Char)) (scanned : Nat) (hits : List OeisHit),
      (∀ h ∈ hits, hitInvariant terms.length h) →
      ∀ h ∈ offlineGo needle terms names maxHits maxScan entries scanned hits,
        hitInvariant terms.length h := by
  intro entries
  induction entries with
  | nil =>
    intro scanned hits hh h hm
    rw [offlineGo] at hm
    exact hh h hm
  | cons e rest ih =>
    rcases e with ⟨aid, restl⟩
    intro scanned hits hh h hm
    rw [offlineGo] at hm
    by_cases hocc : occursIn needle restl
    · rw [if_pos hocc] at hm
      simp only [] at hm
      have hnew : ∀ h' ∈ hits ++
          [{ a_number := aid, name := names aid, offset := [],
             data_terms := offline_parse_terms restl,
             match_len := (best_subsequence_match (offline_parse_terms restl) terms).1,
             match_at := (best_subsequence_match (offline_parse_terms restl) terms).2,
             score := ((best_subsequence_match (offline_parse_terms restl) terms).1 : ℚ) /
               ((max 1 (min terms.length (offline_parse_terms restl).length) : ℕ) : ℚ) }],
          hitInvariant terms.length h' := by
        intro h' hm'
        rcases List.mem_append.mp hm' with hm' | hm'
        · exact hh h' hm'
        · rcases List.mem_singleton.mp hm' with rfl
          exact hitInvariant_mk terms (offline_parse_terms restl) aid (names aid) []
      by_cases hfull : maxHits ≤ hits.length + 1
      · rw [if_pos (by simpa using hfull)] at hm
        exact hnew h hm
      · rw [if_neg (by simpa using hfull)] at hm
        by_cases hsc : scanReached maxScan (scanned + 1)
        · rw [if_pos hsc] at hm
          exact hnew h hm
        · rw [if_neg hsc] at hm
          exact ih (scanned + 1) _ hnew h hm
    · rw [if_neg hocc] at hm
      by_cases hsc : scanReached maxScan (scanned + 1)
      · rw [if_pos hsc] at hm
        exact hh h hm
      · rw [if_neg hsc] at hm
        exact ih (scanned + 1) hits hh h hm

lemma dictLookup_insert (k k' : List Char) (v : OeisHit) :
    ∀ d : List (List Char × OeisHit),
      dictLookup k' (dictInsert k v d) = if k = k' then some v else dictLookup k' d := by
  intro d
  induction d with
  | nil =>
    by_cases h : k = k' <;> simp [dictInsert, dictLookup, h]
  | cons p rest ih =>
    rcases p with ⟨k0, v0⟩
    by_cases h0 : k0 = k
    · subst h0
      rw [dictInsert, if_pos rfl]
      by_cases h : k0 = k' <;> simp [dictLookup, h]
    · rw [dictInsert, if_neg h0]
      by_cases h : k0 = k'
      · subst h
        have hkk : ¬ (k = k0) := fun hh => h0 hh.symm
        simp [dictLookup, hkk]
      · simp [dictLookup, h, ih]

lemma dictLookup_seed (k : List Char) :
    ∀ (offline : List OeisHit) (d : List (List Char × OeisHit)),
      (offline.map (fun h => h.a_number)).Nodup →
      dictLookup k (offline.foldl (fun d h => dictInsert h.a_number h d) d) =
        optOr (findByKey k offline) (dictLookup k d) := by
  intro offline
  induction offline with
  | nil => intro d _; simp [findByKey, optOr]
  | cons h t ih =>
    intro d hnd
    rw [List.map_cons, List.nodup_cons] at hnd
    rcases hnd with ⟨hnotin, hnd'⟩
    rw [List.foldl_cons, ih _ hnd']
    by_cases hk : h.a_number = k
    · subst hk
      have hnone : findByKey h.a_number t = none := by
        rw [findByKey, List.find?_eq_none]
        intro x hx
        simp only [decide_eq_true_eq]
        intro he
        exact hnotin (List.mem_map.mpr ⟨x, hx, he⟩)
      rw [hnone]
      have : findByKey h.a_number (h :: t) = some h := by
        rw [findByKey, List.find?_cons_of_pos]
        simp
      rw [this]
      simp [optOr, dictLookup_insert]
    · have : findByKey k (h :: t) = findByKey k t := by
        rw [findByKey, findByKey, List.find?_cons_of_neg]
        simp [hk]
      rw [this, dictLookup_insert, if_neg hk]

lemma dictLookup_mergeFold (k : List Char) :
    ∀ (online : List OeisHit) (d : List (List Char × OeisHit)),
      (online.map (fun h => h.a_number)).Nodup →
      dictLookup k (online.foldl mergeStep d) =
        mergePick (findByKey k online) (dictLookup k d) := by
  intro online
  induction online with
  | nil => intro d _; simp [findByKey, mergePick]
  | cons h t ih =>
    intro d hnd
    rw [List.map_cons, List.nodup_cons] at hnd
    rcases hnd with ⟨hnotin, hnd'⟩
    rw [List.foldl_cons, ih _ hnd']
    by_cases hk : h.a_number = k
    · subst hk
      have hnone : findByKey h.a_number t = none := by
        rw [findByKey, List.find?_eq_none]
        intro x hx
        simp only [decide_eq_true_eq]
        intro he
        exact hnotin (List.mem_map.mpr ⟨x, hx, he⟩)
      have hcons : findByKey h.a_number (h :: t) = some h := by
        rw [findByKey, List.find?_cons_of_pos]
        simp
      rw [hnone, hcons]
      rw [mergeStep]
      rcases hprev : dictLookup h.a_number d with _ | prev
      · simp [mergePick, dictLookup_insert, hprev]
      · simp only [mergePick]
        by_cases hgt : pairGtBool (h.score, h.match_len) (prev.score, prev.match_len)
        · rw [if_pos hgt, if_pos hgt]
          simp [dictLookup_insert]
        · rw [if_neg hgt, if_neg hgt, hprev]
    · have hskip : findByKey k (h :: t) = findByKey k t := by
        rw [findByKey, findByKey, List.find?_cons_of_neg]
        simp [hk]
      have hstep : dictLookup k (mergeStep d h) = dictLookup k d := by
        rw [mergeStep]
        rcases hprev : dictLookup h.a_number d with _ | prev
        · rw [dictLookup_insert, if_neg hk]
        · dsimp only
          by_cases hgt : pairGtBool (h.score, h.match_len) (prev.score, prev.match_len)
          · rw [if_pos hgt, dictLookup_insert, if_neg hk]
          · rw [if_neg hgt]
      rw [hskip, hstep]

lemma takeIntsUpTo_eq (cap : Nat) :
    ∀ (items : List (List Char)) (out : List Int), out.length < cap →
      takeIntsUpTo cap items out = out ++ (lossyIntTokens items).take (cap - out.length) := by
  intro items
  induction items with
  | nil => intro out _; simp [takeIntsUpTo, lossyIntTokens]
  | cons it rest ih =>
    intro out hlt
    rw [takeIntsUpTo, lossyIntTokens]
    by_cases hit : it = []
    · rw [if_pos hit, if_pos hit]
      exact ih out hlt
    · rw [if_neg hit, if_neg hit]
      rcases hv : pyInt it with _ | v
      · simp
      · dsimp only
        by_cases hcap : cap ≤ (out ++ [v]).length
        · rw [if_pos hcap]
          have h1 : cap - out.length = 1 := by
            rw [List.length_append] at hcap
            simp at hcap
            omega
          rw [h1]
          simp [List.take_succ_cons]
        · rw [if_neg hcap]
          rw [List.length_append] at hcap
          simp at hcap
          rw [ih (out ++ [v]) (by simp; omega)]
          have h2 : cap - out.length = (cap - (out ++ [v]).length) + 1 := by
            simp
            omega
          rw [h2, List.take_succ_cons, List.append_assoc]
          simp

lemma splitOnComma_ne_nil : ∀ s : List Char, splitOnComma s ≠ []
  | [] => by simp [splitOnComma]
  | c :: rest => by
    rw [splitOnComma]
    by_cases h : c = ','
    · simp [h]
    · rw [if_neg h]
      rcases hs : splitOnComma rest with _ | ⟨t, ts⟩
      · simp
      · simp

lemma splitOnComma_mem_sub :
    ∀ (s : List Char) (t : List Char), t ∈ splitOnComma s → ∀ c ∈ t, c ∈ s
  | [], t => by
    intro ht c hc
    rw [splitOnComma] at ht
    rcases List.mem_singleton.mp ht with rfl
    cases hc
  | c0 :: rest, t => by
    intro ht c hc
    rw [splitOnComma] at ht
    by_cases h : c0 = ','
    · rw [if_pos h] at ht
      rcases List.mem_cons.mp ht with rfl | ht'
      · cases hc
      · exact List.mem_cons_of_mem _ (splitOnComma_mem_sub rest t ht' c hc)
    · rw [if_neg h] at ht
      rcases hs : splitOnComma rest with _ | ⟨t0, ts⟩
      · exact absurd hs (splitOnComma_ne_nil rest)
      · rw [hs] at ht
        rcases List.mem_cons.mp ht with rfl | ht'
        · rcases List.mem_cons.mp hc with rfl | hc'
          · exact List.mem_cons_self _ _
          · have ht0 : t0 ∈ splitOnComma rest := by rw [hs]; exact List.mem_cons_self _ _
            exact List.mem_cons_of_mem _ (splitOnComma_mem_sub rest t0 ht0 c hc')
        · have htt : t ∈ splitOnComma rest := by rw [hs]; exact List.mem_cons_of_mem _ ht'
          exact List.mem_cons_of_mem _ (splitOnComma_mem_sub rest t htt c hc)

lemma stripBy_eq_self (p : Char → Bool) (l : List Char)
    (h : ∀ c ∈ l, p c = false) : stripBy p l = l := by
  rw [stripBy]
  have h1 : l.dropWhile p = l := by
    rcases l with _ | ⟨c, cs⟩
    · rfl
    · rw [List.dropWhile_cons_of_neg]
      simp [h c (List.mem_cons_self _ _)]
  rw [h1]
  have h2 : l.reverse.dropWhile p = l.reverse := by
    rcases hr : l.reverse with _ | ⟨c, cs⟩
    · rfl
    · rw [List.dropWhile_cons_of_neg]
      have : c ∈ l := by
        rw [← List.mem_reverse, hr]
        exact List.mem_cons_self _ _
      simp [h c this]
  rw [h2, List.reverse_reverse]

lemma parse_oeis_data_terms_eq (s : List Char) :
    parse_oeis_data_terms s 400 =
      (lossyIntTokens ((splitOnComma (pyStrip s)).map pyStrip)).take 400 := by
  rw [parse_oeis_data_terms]
  by_cases h : pyStrip s = []
  · rw [h]
    rfl
  · simp only [h, if_neg]
    rw [takeIntsUpTo_eq 400 _ [] (by simp)]
    simp

lemma offline_parse_terms_eq (s : List Char) :
    offline_parse_terms s = (lossyIntTokens (splitOnComma s)).take 400 := by
  rw [offline_parse_terms, takeIntsUpTo_eq 400 _ [] (by simp)]
  simp

lemma parse_agreement (s : List Char) (hws : ∀ c ∈ s, pyIsSpaceChar c = false) :
    offline_parse_terms s = parse_oeis_data_terms s 400 := by
  rw [offline_parse_terms_eq, parse_oeis_data_terms_eq]
  have hstrip : pyStrip s = s := stripBy_eq_self pyIsSpaceChar s hws
  rw [hstrip]
  have htok : (splitOnComma s).map pyStrip = splitOnComma s := by
    have h1 : ∀ t ∈ splitOnComma s, pyStrip t = t := by
      intro t ht
      exact stripBy_eq_self pyIsSpaceChar t
        (fun c hc => hws c (splitOnComma_mem_sub s t ht c hc))
    rw [List.map_congr_left h1, List.map_id']
  rw [htok]

lemma leadSeg_singleton_iff (c : Char) (l : List Char) :
    leadSeg [c] l = true ↔ ∃ t, l = c :: t := by
  rcases l with _ | ⟨b, bs⟩
  · simp [leadSeg]
  · rw [leadSeg]
    simp only [Bool.and_eq_true, decide_eq_true_eq]
    constructor
    · rintro ⟨rfl, _⟩
      exact ⟨bs, rfl⟩
    · rintro ⟨t, ht⟩
      cases ht
      exact ⟨rfl, rfl⟩

lemma earlyScore_strict_anti (i j : Nat) (hij : i < j) :
    earlyScore (some j) < earlyScore (some i) := by
  rw [earlyScore, earlyScore]
  have hi : (0 : ℚ) < 1 + (i : ℚ) := by positivity
  have hj : (0 : ℚ) < 1 + (j : ℚ) := by positivity
  have : (i : ℚ) < (j : ℚ) := by exact_mod_cast hij
  apply div_lt_div_of_pos_left one_pos hi
  linarith

lemma earlyScore_none_lt (i : Nat) : earlyScore none < earlyScore (some i) := by
  rw [earlyScore, earlyScore]
  positivity

/-- C1: `best_subsequence_match` returns `(0, absent)` on an empty haystack
or needle, and in general returns the maximum aligned-run length together
with the smallest start index achieving it (`isBestMatch`), the two early
exits notwithstanding. -/
theorem C1_best_subsequence_match_correct (hay needle : List Int) :
    ((needle = [] ∨ hay = []) → best_subsequence_match hay needle = (0, none)) ∧
    isBestMatch hay needle (best_subsequence_match hay needle) := by
  constructor
  · intro h
    rw [best_subsequence_match, if_pos h]
  · exact bsm_isBestMatch hay needle

/-- Witness for C1 at a concrete input with an empty haystack. -/
theorem C1_best_subsequence_match_correct_witness :
    best_subsequence_match ([] : List Int) [1] = (0, none) :=
  (C1_best_subsequence_match_correct ([] : List Int) [1]).1 (Or.inr rfl)

/-- C2: every hit either adapter returns satisfies the Hit invariants:
`match_len` bounded by the data length, no start index on a zero match,
`match_at + match_len` within the data, and the score formula with its
`[0, 1]` bounds. -/
theorem C2_adapter_hit_invariants :
    (∀ (terms : List Int) (payload : JPayload) (maxHits : Nat) (h : OeisHit),
        h ∈ hits_from_online_json terms payload maxHits → hitInvariant terms.length h) ∧
    (∀ (terms : List Int) (lines : List (List Char)) (names : List Char → List Char)
        (maxHits : Nat) (maxScan : Option Nat) (h : OeisHit),
        h ∈ oeis_search_offline_stripped terms lines names maxHits maxScan →
          hitInvariant terms.length h) := by
  constructor
  · intro terms payload maxHits h hm
    rw [hits_from_online_json] at hm
    have hm1 := List.mem_of_mem_take hm
    rw [mem_isortByGe] at hm1
    rcases List.mem_filterMap.mp hm1 with ⟨e, _, he⟩
    rcases e with r | _
    · have : mkOnlineHit terms r = h := Option.some.inj he
      rw [← this]
      exact mkOnlineHit_invariant terms r
    · cases he
  · intro terms lines names maxHits maxScan h hm
    rw [oeis_search_offline_stripped] at hm
    have hm1 := List.mem_of_mem_take hm
    rw [mem_isortByGe] at hm1
    exact offlineGo_invariant (wrapNeedle terms) terms names maxHits maxScan
      (iter_stripped_lines lines) 0 [] (by intro h' hm'; cases hm') h hm1

/-- Witness for C2: the concrete hit the online adapter builds from
`c2payload` for the query `[1]` satisfies the invariants. -/
theorem C2_adapter_hit_invariants_witness : hitInvariant (([1] : List Int).length) c2hit :=
  C2_adapter_hit_invariants.1 [1] c2payload 10 c2hit
    (List.mem_singleton.mpr rfl)

/-- C3: the merger keys hits by identifier, seeding from the offline list;
an identifier found in exactly one source survives unchanged, and when an
identifier is in both the online hit replaces the offline one iff its
`(score, match_len)` pair is strictly lexicographically greater. -/
theorem C3_merge_per_identifier (offline online : List OeisHit)
    (hoff : (offline.map (fun h => h.a_number)).Nodup)
    (hon : (online.map (fun h => h.a_number)).Nodup) (k : List Char) :
    dictLookup k (merge_hits offline online) =
      match findByKey k offline, findByKey k online with
      | none, none => none
      | some f, none => some f
      | none, some n => some n
      | some f, some n =>
        some (if pairGtBool (n.score, n.match_len) (f.score, f.match_len) then n else f) := by
  rw [merge_hits, dictLookup_mergeFold k online _ hon, seedDict,
    dictLookup_seed k offline [] hoff]
  rcases findByKey k offline with _ | f <;> rcases findByKey k online with _ | n <;>
    simp [mergePick, optOr, dictLookup]

/-- Witness for C3: on singleton lists sharing one identifier, the online
hit with the strictly greater pair survives. -/
theorem C3_merge_per_identifier_witness :
    dictLookup (("A000001".toList)) (merge_hits [c3off] [c3on]) = some c3on := by
  rw [C3_merge_per_identifier [c3off] [c3on] (by decide) (by decide) (("A000001".toList))]
  decide

/-- C4: `sort_hits` under `strict` returns a stable descending reordering
by `(score, match_len)`; under `prefer-early` by
`(score, match_len, earliness)` where a smaller `match_at` means a larger
earliness and an absent `match_at` the smallest; any other policy name is
an error. -/
theorem C4_sort_hits_policies (hits : List OeisHit) :
    (∃ l, sort_hits hits "strict" = Except.ok l ∧ l.Perm hits ∧
      l.Pairwise (fun a b => geStrict a b = true) ∧
      ∀ k, l.filter (fun h => decide (keyStrict h = k)) =
        hits.filter (fun h => decide (keyStrict h = k))) ∧
    (∃ l, sort_hits hits "prefer-early" = Except.ok l ∧ l.Perm hits ∧
      l.Pairwise (fun a b => gePE a b = true) ∧
      ∀ k, l.filter (fun h => decide (keyPE h = k)) =
        hits.filter (fun h => decide (keyPE h = k))) ∧
    (∀ i j : Nat, i < j → earlyScore (some j) < earlyScore (some i)) ∧
    (∀ i : Nat, earlyScore none < earlyScore (some i)) ∧
    (∀ r : String, r ≠ "strict" → r ≠ "prefer-early" →
      sort_hits hits r = Except.error sortRankError) := by
  refine ⟨⟨isortByGe geStrict hits, rfl, isortByGe_perm geStrict hits,
      pairwise_isortByGe geStrict geStrict_total geStrict_trans hits,
      fun k => filter_isortByGe geStrict keyStrict geStrict_false_ne k hits⟩,
    ⟨isortByGe gePE hits, rfl, isortByGe_perm gePE hits,
      pairwise_isortByGe gePE gePE_total gePE_trans hits,
      fun k => filter_isortByGe gePE keyPE gePE_false_ne k hits⟩,
    earlyScore_strict_anti, earlyScore_none_lt, ?_⟩
  intro r h1 h2
  rw [sort_hits, if_neg h1, if_neg h2]

/-- Witness for C4: an unrecognized policy name fails. -/
theorem C4_sort_hits_policies_witness :
    sort_hits [] "badpolicy" = Except.error sortRankError :=
  (C4_sort_hits_policies []).2.2.2.2 "badpolicy" (by decide) (by decide)

/-- C5 counterexample: the online adapter can hand the merger a hit with
`match_len = 0` (query `[1, 2]` against data `9,9`), and the default
minimum-match-length filter (threshold `max(1, 1) = 1`) removes it, so the
default filter is not a no-op. -/
theorem C5_default_filter_counterexample :
    filter_min_match (effective_min_match_len 1)
        (dictValues (merge_hits [] (hits_from_online_json [1, 2] c5payload 10))) = [] ∧
    dictValues (merge_hits [] (hits_from_online_json [1, 2] c5payload 10)) ≠ [] := by
  decide

/-- C5 amended: the default filter keeps exactly the merged hits with
`match_len ≥ 1`, hence it is a no-op precisely on lists whose hits all
have a positive match length. -/
theorem C5_default_filter_amended (hits : List OeisHit) :
    filter_min_match (effective_min_match_len 1) hits =
      hits.filter (fun h => decide (0 < h.match_len)) ∧
    ((∀ h ∈ hits, 0 < h.match_len) →
      filter_min_match (effective_min_match_len 1) hits = hits) := by
  have heq : filter_min_match (effective_min_match_len 1) hits =
      hits.filter (fun h => decide (0 < h.match_len)) := by
    rw [filter_min_match]
    apply List.filter_congr
    intro h _
    have : effective_min_match_len 1 = 1 := rfl
    rw [this]
    by_cases h0 : 0 < h.match_len
    · have h1 : (1 : Int) ≤ (h.match_len : Int) := by exact_mod_cast h0
      simp [h0, h1]
    · have h1 : ¬ ((1 : Int) ≤ (h.match_len : Int)) := by
        intro hc
        exact h0 (by exact_mod_cast hc)
      simp [h0, h1]
  refine ⟨heq, ?_⟩
  intro hall
  rw [heq]
  apply List.filter_eq_self.mpr
  intro a ha
  simpa using hall a ha

/-- Witness for C5 amended: on a singleton list with a positive match
length the default filter keeps everything. -/
theorem C5_default_filter_amended_witness :
    filter_min_match (effective_min_match_len 1) [c5hitKept] = [c5hitKept] :=
  (C5_default_filter_amended [c5hitKept]).2 (by decide)

/-- C6 counterexample: a record whose `number` field is the integer `0`
does not yield `"A000000"`: the `or ""` coercion treats `0` as falsy and
the adapter falls back to the textual `id` field. -/
theorem C6_number_zero_counterexample :
    (hits_from_online_json [1] c6payload 10).map (fun h => h.a_number) =
      [("X999999".toList)] ∧
    ("X999999".toList) ≠ 'A' :: pad6 0 := by
  decide

/-- C6 amended: a nonzero integer `number` is zero-padded behind `'A'`; a
digit-string `number` is parsed and zero-padded; an integer `0`, an absent
`number`, or a non-digit string falls back to the stripped `id` field when
non-empty and to the sentinel `"A??????"` otherwise. -/
theorem C6_identifier_extraction_amended :
    (∀ (n : Int) (idf : Option (List Char)), n ≠ 0 →
      extract_a_number (JVal.jint n) idf = 'A' :: pad6 n) ∧
    (∀ (s : List Char) (idf : Option (List Char)),
      pyStrip s ≠ [] → (pyStrip s).all Char.isDigit = true →
      extract_a_number (JVal.jstr s) idf = 'A' :: pad6 ((digitsVal (pyStrip s) : Int))) ∧
    (∀ idf, extract_a_number (JVal.jint 0) idf = fallbackId idf) ∧
    (∀ idf, extract_a_number JVal.jnull idf = fallbackId idf) ∧
    (∀ (s : List Char) (idf : Option (List Char)),
      pyStrip s = [] ∨ (pyStrip s).all Char.isDigit = false →
      extract_a_number (JVal.jstr s) idf = fallbackId idf) ∧
    (∀ idf : Option (List Char), pyStrip (idf.getD []) = [] → fallbackId idf = unknownId) ∧
    (∀ idf : Option (List Char), pyStrip (idf.getD []) ≠ [] →
      fallbackId idf = pyStrip (idf.getD [])) := by
  refine ⟨?_, ?_, ?_, ?_, ?_, ?_, ?_⟩
  · intro n idf hn
    rw [extract_a_number, jOrEmptyStr, if_neg hn]
  · intro s idf hne hdig
    simp only [extract_a_number, jOrEmptyStr]
    rw [if_pos ⟨hne, hdig⟩]
  · intro idf
    simp only [extract_a_number, jOrEmptyStr, if_pos rfl]
    have hstrip : pyStrip ([] : List Char) = [] := rfl
    simp [hstrip]
  · intro idf
    simp only [extract_a_number, jOrEmptyStr]
    have hstrip : pyStrip ([] : List Char) = [] := rfl
    simp [hstrip]
  · intro s idf hor
    simp only [extract_a_number, jOrEmptyStr]
    rcases hor with h | h
    · simp [h]
    · by_cases hne : pyStrip s = []
      · simp [hne]
      · simp [hne, h]
  · intro idf h
    rw [fallbackId, if_pos h]
  · intro idf h
    rw [fallbackId, if_neg h]

/-- Witness for C6 amended: number `45` yields `"A000045"`. -/
theorem C6_identifier_extraction_amended_witness :
    extract_a_number (JVal.jint 45) none = 'A' :: pad6 45 :=
  C6_identifier_extraction_amended.1 45 none (by decide)

/-- C7 counterexample: `"AZZZZZZ"` does not match the pattern `"A"` plus
six digits, yet the validation accepts it and the request is built. -/
theorem C7_validation_counterexample :
    exceptIsOk (oeis_fetch_by_id_online (("AZZZZZZ".toList))) = true ∧
    isStrictANumber (pyStrip ((("AZZZZZZ".toList)).map Char.toUpper)) = false := by
  decide

/-- C7 amended: after uppercasing and trimming, the lookup proceeds iff
the result is any 7-character string starting with `'A'`; in particular
every string matching `"A"` plus six digits passes, but the six digits are
not themselves checked. -/
theorem C7_validation_amended (s : List Char) :
    (exceptIsOk (oeis_fetch_by_id_online s) = true ↔
      ∃ rest : List Char, pyStrip (s.map Char.toUpper) = 'A' :: rest ∧ rest.length = 6) ∧
    (isStrictANumber (pyStrip (s.map Char.toUpper)) = true →
      exceptIsOk (oeis_fetch_by_id_online s) = true) := by
  have hmain : exceptIsOk (oeis_fetch_by_id_online s) = true ↔
      ∃ rest : List Char, pyStrip (s.map Char.toUpper) = 'A' :: rest ∧ rest.length = 6 := by
    rw [oeis_fetch_by_id_online]
    by_cases hcond : (leadSeg (("A".toList)) (pyStrip (s.map Char.toUpper)) &&
        decide ((pyStrip (s.map Char.toUpper)).length = 7)) = true
    · rw [if_pos hcond]
      have hsplit : leadSeg (("A".toList)) (pyStrip (s.map Char.toUpper)) = true ∧
          decide ((pyStrip (s.map Char.toUpper)).length = 7) = true := by
        simpa using hcond
      rcases hsplit with ⟨hlead, hlen⟩
      have hlead' : ∃ t, pyStrip (s.map Char.toUpper) = 'A' :: t :=
        (leadSeg_singleton_iff 'A' _).mp hlead
      rcases hlead' with ⟨t, ht⟩
      refine ⟨fun _ => ⟨t, ht, ?_⟩, fun _ => rfl⟩
      have hl : (pyStrip (s.map Char.toUpper)).length = 7 := of_decide_eq_true hlen
      rw [ht] at hl
      simpa using hl
    · rw [if_neg hcond]
      refine ⟨fun h => absurd h (by simp [exceptIsOk]), fun hex => ?_⟩
      exfalso
      apply hcond
      rcases hex with ⟨t, ht, htl⟩
      have h1 : leadSeg (("A".toList)) (pyStrip (s.map Char.toUpper)) = true :=
        (leadSeg_singleton_iff 'A' _).mpr ⟨t, ht⟩
      have h2 : (pyStrip (s.map Char.toUpper)).length = 7 := by
        rw [ht]
        simp [htl]
      simp [h2]
      exact h1
  refine ⟨hmain, ?_⟩
  intro hstrict
  apply hmain.mpr
  rcases hp : pyStrip (s.map Char.toUpper) with _ | ⟨c, rest⟩
  · rw [hp] at hstrict
    cases hstrict
  · rw [hp] at hstrict
    rw [isStrictANumber] at hstrict
    have hparts : (decide (c = 'A') && decide (rest.length = 6)) = true ∧
        rest.all Char.isDigit = true := by simpa using hstrict
    have hc : c = 'A' := by
      have := hparts.1
      simp at this
      exact this.1
    have hlen : rest.length = 6 := by
      have := hparts.1
      simp at this
      exact this.2
    exact ⟨rest, by rw [hc], hlen⟩

/-- Witness for C7 amended: a well-formed A-number passes validation. -/
theorem C7_validation_amended_witness :
    exceptIsOk (oeis_fetch_by_id_online (("A000045".toList))) = true :=
  (C7_validation_amended (("A000045".toList))).2 (by decide)

/-- C8 counterexample: on `"1,,2"` the code parses `[1, 2]` — the empty
chunk between the commas is skipped — while stopping at the first
malformed token would yield `[1]`, so the result is not a prefix of the
well-formed leading tokens. -/
theorem C8_lossy_parse_counterexample :
    parse_oeis_data_terms (("1,,2".toList)) 400 = [1, 2] ∧
    claimLeadingInts ((splitOnComma (pyStrip (("1,,2".toList)))).map pyStrip) = [1] ∧
    leadSeg (parse_oeis_data_terms (("1,,2".toList)) 400)
      (claimLeadingInts ((splitOnComma (pyStrip (("1,,2".toList)))).map pyStrip)) = false := by
  decide

/-- C8 amended: both parsers take the integers of the comma chunks in
order, skipping empty chunks, stopping at the first non-empty malformed
chunk, and capping the result at 400; the two agree on whitespace-free
input such as a normalized corpus line. -/
theorem C8_lossy_parse_amended (s : List Char) :
    parse_oeis_data_terms s 400 =
      (lossyIntTokens ((splitOnComma (pyStrip s)).map pyStrip)).take 400 ∧
    (parse_oeis_data_terms s 400).length ≤ 400 ∧
    offline_parse_terms s = (lossyIntTokens (splitOnComma s)).take 400 ∧
    ((∀ c ∈ s, pyIsSpaceChar c = false) →
      offline_parse_terms s = parse_oeis_data_terms s 400) := by
  refine ⟨parse_oeis_data_terms_eq s, ?_, offline_parse_terms_eq s, parse_agreement s⟩
  rw [parse_oeis_data_terms_eq s]
  have h := List.length_take 400 (lossyIntTokens ((splitOnComma (pyStrip s)).map pyStrip))
  omega

/-- Witness for C8 amended: the offline and online parsers agree on the
whitespace-free string `"1,2"`. -/
theorem C8_lossy_parse_amended_witness :
    offline_parse_terms (("1,2".toList)) = parse_oeis_data_terms (("1,2".toList)) 400 :=
  (C8_lossy_parse_amended (("1,2".toList))).2.2.2 (by decide)

/-- C9: for a non-empty query and a hit whose positive match length comes
with a start index (true of every hit the matcher builds), the explainer
reports `full_match` iff the match covers the query, `no_alignment` iff
the alignment is absent or empty, and otherwise `mismatch` with
`query_index = match_len`, `hay_index = match_at + match_len`, `got` the
query value there, and `expected` the data value when in range. -/
theorem C9_mismatch_details_classification (q : List Int) (hit : OeisHit)
    (hq : q ≠ []) (hinv : 0 < hit.match_len → hit.match_at ≠ none) :
    ((mismatch_details q hit).status = "no_alignment" ↔
      (hit.match_at = none ∨ hit.match_len = 0)) ∧
    ((mismatch_details q hit).status = "full_match" ↔ q.length ≤ hit.match_len) ∧
    ((mismatch_details q hit).status = "mismatch" ↔
      (hit.match_len < q.length ∧ 0 < hit.match_len)) ∧
    (hit.match_len < q.length → 0 < hit.match_len →
      (mismatch_details q hit).query_index = some hit.match_len ∧
      (∀ j, hit.match_at = some j →
        (mismatch_details q hit).hay_index = some (j + hit.match_len)) ∧
      (mismatch_details q hit).got = q.get? hit.match_len ∧
      (q.get? hit.match_len).isSome = true ∧
      (∀ j, hit.match_at = some j →
        (mismatch_details q hit).expected = hit.data_terms.get? (j + hit.match_len))) := by
  have hqpos : 0 < q.length := List.length_pos.mpr hq
  by_cases hB : hit.match_at = none ∨ hit.match_len = 0
  · have hml : hit.match_len = 0 := by
      rcases hB with h | h
      · by_contra hc
        exact (hinv (by omega)) h
      · exact h
    rw [mismatch_details, if_pos hB]
    refine ⟨by simp [hB], ?_, ?_, ?_⟩
    · simp only []
      constructor
      · intro h
        exact absurd h (by decide)
      · intro h
        omega
    · simp only []
      constructor
      · intro h
        exact absurd h (by decide)
      · intro h
        omega
    · intro h1 h2
      omega
  · rw [mismatch_details, if_neg hB]
    push_neg at hB
    rcases hB with ⟨hmat, hml⟩
    have hmlpos : 0 < hit.match_len := Nat.pos_of_ne_zero hml
    by_cases hA : q.length ≤ hit.match_len
    · rw [if_pos hA]
      refine ⟨?_, by simp [hA], ?_, ?_⟩
      · simp only []
        constructor
        · intro h
          exact absurd h (by decide)
        · intro h
          rcases h with h | h
          · exact absurd h hmat
          · omega
      · simp only []
        constructor
        · intro h
          exact absurd h (by decide)
        · intro h
          omega
      · intro h1 _
        omega
    · rw [if_neg hA]
      push_neg at hA
      refine ⟨?_, ?_, by simp [hA, hmlpos], ?_⟩
      · simp only []
        constructor
        · intro h
          exact absurd h (by decide)
        · intro h
          rcases h with h | h
          · exact absurd h hmat
          · omega
      · simp only []
        constructor
        · intro h
          exact absurd h (by decide)
        · intro h
          omega
      · intro _ _
        refine ⟨rfl, ?_, rfl, ?_, ?_⟩
        · intro j hj
          simp [hj]
        · rw [List.get?_eq_get (by omega : hit.match_len < q.length)]
          rfl
        · intro j hj
          simp [hj]

/-- Witness for C9: the spec's worked example reports a mismatch. -/
theorem C9_mismatch_details_classification_witness :
    (mismatch_details [0, 1, 3, 6, 2, 7, 13, 20, 12, 21, 11, 99] c9hit).status =
      "mismatch" := by
  have h := C9_mismatch_details_classification
    [0, 1, 3, 6, 2, 7, 13, 20, 12, 21, 11, 99] c9hit (by decide)
    (fun _ => by decide)
  exact h.2.2.1.mpr (by decide)

/-- C10: acceptance by the wrapped-substring test does not guarantee a
full integer-level match: both corpus lines contain the wrapped needle
`,1,2,3,`, but the first line's terms are truncated at the malformed token
`x`, its hit has `match_len = 0 < 3`, and with `max_hits = 1` that hit
alone fills the acceptance limit, shutting out the fully matching second
line. -/
theorem C10_offline_accept_without_match :
    ((iter_stripped_lines c10lines).map
      (fun p => occursIn (wrapNeedle [1, 2, 3]) p.2)) = [true, true] ∧
    (oeis_search_offline_stripped [1, 2, 3] c10lines (fun _ => []) 1 none).map
      (fun h => (h.a_number, h.match_len)) = [((("A000001".toList)), 0)] ∧
    (0 : Nat) < ([1, 2, 3] : List Int).length ∧
    (oeis_search_offline_stripped [1, 2, 3] c10lines (fun _ => []) 1 none).length = 1 := by
  decide
